import Mathlib

/-!
# Verification of `imageUnderstanding.py`

A shallow embedding of the image-understanding client:

* the filesystem is modelled as the list of entry names of the image
  directory (`fs : List String`), in directory iteration order; a path
  `IMAGE_DIR / n` exists exactly when `n` is a member of that list
  (names are single directory entries, without path separators);
* `pathlib`'s `Path.suffix` is modelled by `sfx` (the substring from the
  last dot of the name, empty when that dot is the first or the last
  character or there is no dot);
* Python's `str.lower` is modelled by `lowerStr`, ASCII letter by letter
  (the strings it is compared against in the source are all ASCII);
* the remote model call (`genai.GenerativeModel(...).generate_content`
  followed by the `response.text` access) is a single oracle value of
  type `CallOutcome`: either it raises with some message or it yields a
  text; `PIL.Image.open` is an oracle `String → Option String` giving,
  per path, the message of the exception it raises, if any;
* since the absolute image-directory path interpolated into the
  resolver's error message is machine dependent, it is rendered by the
  fixed token `imageDirStr`.
-/

/-- Python `str.lower`, one ASCII character: the 26 uppercase letters map to
their lowercase forms, every other character is unchanged. -/
def lowerChar (c : Char) : Char :=
  if c = 'A' then 'a' else if c = 'B' then 'b' else if c = 'C' then 'c'
  else if c = 'D' then 'd' else if c = 'E' then 'e' else if c = 'F' then 'f'
  else if c = 'G' then 'g' else if c = 'H' then 'h' else if c = 'I' then 'i'
  else if c = 'J' then 'j' else if c = 'K' then 'k' else if c = 'L' then 'l'
  else if c = 'M' then 'm' else if c = 'N' then 'n' else if c = 'O' then 'o'
  else if c = 'P' then 'p' else if c = 'Q' then 'q' else if c = 'R' then 'r'
  else if c = 'S' then 's' else if c = 'T' then 't' else if c = 'U' then 'u'
  else if c = 'V' then 'v' else if c = 'W' then 'w' else if c = 'X' then 'x'
  else if c = 'Y' then 'y' else if c = 'Z' then 'z' else c

/-- Python `str.lower` on a string (ASCII model). -/
def lowerStr (s : String) : String :=
  String.mk (s.data.map lowerChar)

/-- Index of the last `'.'` in a character list (`str.rfind('.')`),
`none` when there is no dot. -/
def lastDot : List Char → Option Nat
  | [] => none
  | c :: cs =>
    match lastDot cs with
    | some i => some (i + 1)
    | none => if c = '.' then some 0 else none

/-- `pathlib.PurePath.suffix` of a file name: `name[i:]` when `i`, the index
of the last dot, satisfies `0 < i < len(name) - 1`, else the empty string. -/
def sfx (s : String) : String :=
  match lastDot s.data with
  | none => ""
  | some i =>
    if 0 < i ∧ i + 1 < s.data.length then String.mk (s.data.drop i) else ""

/-- `SUPPORTED_FORMATS = ('.jpg', '.jpeg', '.png', '.gif', '.webp')`
(line 14 of the source). -/
def SUPPORTED_FORMATS : List String :=
  [".jpg", ".jpeg", ".png", ".gif", ".webp"]

/-- Stands for the interpolation of `IMAGE_DIR` (an absolute, machine
dependent path) into the resolver's error message. -/
def imageDirStr : String := "IMAGE_DIR"

/-- The `ValueError` message raised at lines 54-55 of the source. -/
def errMsg (image_name : String) : String :=
  "Image \x27" ++ image_name ++ "\x27 not found in " ++ imageDirStr ++
    " or format not supported. Supported formats: " ++
    String.intercalate ", " SUPPORTED_FORMATS

/-- `get_image_path` (source lines 32-55): try the exact name first and
accept it when it exists with an allow-listed extension (lowercased); when
the name contains no dot, try appending each supported extension in order
and return the first candidate that exists; otherwise raise `ValueError`
(modelled as `Except.error` carrying the message). -/
def get_image_path (fs : List String) (image_name : String) :
    Except String String :=
  if image_name ∈ fs ∧ lowerStr (sfx image_name) ∈ SUPPORTED_FORMATS then
    Except.ok image_name
  else if '.' ∉ image_name.data then
    match SUPPORTED_FORMATS.find? (fun ext => decide (image_name ++ ext ∈ fs)) with
    | some ext => Except.ok (image_name ++ ext)
    | none => Except.error (errMsg image_name)
  else
    Except.error (errMsg image_name)

/-- Outcome of the remote model call together with the `response.text`
access: either some step of it raises (message carried), or a text is
produced (the empty string models Python-falsy "no text"). -/
inductive CallOutcome where
  | raises (msg : String)
  | returns (text : String)
deriving DecidableEq, Repr

/-- `analyze_image` (source lines 57-86). The whole body, the resolver call
included, sits inside `try`; any exception is flattened into the returned
string `"Error analyzing image: <message>"`. `oF p` is the message of the
exception `Image.open p` raises, if any; `gen` is the model-call outcome.
When the response text is falsy the fixed fallback string is returned. -/
def analyze_image (fs : List String) (image_name : String)
    (prompt : String) (oF : String → Option String) (gen : CallOutcome) :
    String :=
  match get_image_path fs image_name with
  | Except.error e => "Error analyzing image: " ++ e
  | Except.ok p =>
    match oF p with
    | some e => "Error analyzing image: " ++ e
    | none =>
      match gen with
      | CallOutcome.raises e => "Error analyzing image: " ++ e
      | CallOutcome.returns t =>
        if t ≠ "" then t else "No analysis generated for the image."

/-- `compare_images` (source lines 88-115). Both resolver calls and both
image loads sit inside `try`; any exception is flattened into
`"Error comparing images: <message>"`. The response text is returned
verbatim (no fallback for empty text in this path). -/
def compare_images (fs : List String) (image1_name image2_name : String)
    (oF : String → Option String) (gen : CallOutcome) : String :=
  match get_image_path fs image1_name with
  | Except.error e => "Error comparing images: " ++ e
  | Except.ok p1 =>
    match get_image_path fs image2_name with
    | Except.error e => "Error comparing images: " ++ e
    | Except.ok p2 =>
      match oF p1 with
      | some e => "Error comparing images: " ++ e
      | none =>
        match oF p2 with
        | some e => "Error comparing images: " ++ e
        | none =>
          match gen with
          | CallOutcome.raises e => "Error comparing images: " ++ e
          | CallOutcome.returns t => t

/-- Modelled from the spec: `list_available_images` is called by `main`
(source line 138) but its definition is not under `src/`. Spec §3 defines
the Image Gallery as "the set of filenames in the image directory matching
the allow-list; recomputed on every listing request", with the allow-list
matched case-insensitively (§6). Modelled as the filter of the directory
listing keeping the entries whose extension, lowercased, is allow-listed. -/
def list_available_images (fs : List String) : List String :=
  fs.filter (fun f => decide (lowerStr (sfx f) ∈ SUPPORTED_FORMATS))

/-- The default prompt of `analyze_image` (also rebuilt at line 153). -/
def defaultPrompt : String := "Describe this image in detail."

/-- What one iteration of the CLI loop prints (beyond the fixed banner). -/
inductive CliOut where
  /-- Empty input line: silently continue. -/
  | emptyInput
  /-- `quit`: leave the loop. -/
  | quitOut
  /-- `list` with a nonempty gallery: the image names are printed. -/
  | listing (imgs : List String)
  /-- `list` with an empty gallery: "No images found. ...". -/
  | noImages
  /-- `analyze` without an image argument: "Please specify an image name.". -/
  | analyzeUsage
  /-- `analyze`: "Analysis Result:" followed by the returned string. -/
  | analysisShown (s : String)
  /-- `compare` with an argument count other than two:
  "Please specify two images to compare.". -/
  | compareUsage
  /-- `compare`: "Comparison Result:" followed by the returned string. -/
  | comparisonShown (s : String)
  /-- Unknown verb: "Invalid command. Please try again.". -/
  | invalidCmd
deriving DecidableEq, Repr

/-- Splits a character list at whitespace characters, keeping empty pieces
(one fold step per character). -/
def wsPieces (cs : List Char) : List (List Char) :=
  cs.foldr
    (fun c acc =>
      if c.isWhitespace then [] :: acc
      else
        match acc with
        | [] => [[c]]
        | t :: ts => (c :: t) :: ts)
    []

/-- `input().strip().split()`: split on runs of (ASCII) whitespace,
discarding empty tokens — which also subsumes the `strip`. -/
def tokenize (line : String) : List String :=
  ((wsPieces line.data).filter (fun t => decide (t ≠ []))).map String.mk

/-- One iteration of the `main` loop (source lines 128-175) on an already
tokenized input line: returns whether the loop exits (`break`) and what is
printed. The `except ValueError` handlers around the `analyze` and
`compare` branches are unreachable — `analyze_image` and `compare_images`
catch every exception internally — so the branches are modelled by their
direct results. -/
def cliStep (fs : List String) (oF : String → Option String)
    (gen : CallOutcome) (tokens : List String) : Bool × CliOut :=
  match tokens with
  | [] => (false, CliOut.emptyInput)
  | cmd :: args =>
    if lowerStr cmd = "quit" then
      (true, CliOut.quitOut)
    else if lowerStr cmd = "list" then
      let imgs := list_available_images fs
      (false, if imgs ≠ [] then CliOut.listing imgs else CliOut.noImages)
    else if lowerStr cmd = "analyze" then
      match args with
      | [] => (false, CliOut.analyzeUsage)
      | image_name :: rest =>
        let prompt :=
          if rest ≠ [] then String.intercalate " " rest else defaultPrompt
        (false, CliOut.analysisShown (analyze_image fs image_name prompt oF gen))
    else if lowerStr cmd = "compare" then
      match args with
      | [n1, n2] => (false, CliOut.comparisonShown (compare_images fs n1 n2 oF gen))
      | _ => (false, CliOut.compareUsage)
    else
      (false, CliOut.invalidCmd)

/-- The resolver algorithm exactly as spec §4.1 states it, for comparison
with `get_image_path`: (1) when the literal name exists under the image
directory with an allow-listed (case-insensitively compared) extension,
return it; (2) otherwise, when the name has no extension — read as: the
bare name contains no dot, the spec's "bare name or name+extension"
dichotomy (§3) — form the candidates in the fixed order jpg, jpeg, png,
gif, webp and return the first candidate that exists; (3) otherwise fail. -/
def specResolve (fs : List String) (name : String) : Except String String :=
  if name ∈ fs ∧ lowerStr (sfx name) ∈ SUPPORTED_FORMATS then
    Except.ok name
  else if '.' ∉ name.data then
    match ((SUPPORTED_FORMATS.map (fun ext => name ++ ext)).filter
        (fun c => decide (c ∈ fs))).head? with
    | some c => Except.ok c
    | none => Except.error (errMsg name)
  else
    Except.error (errMsg name)

/-! ## Helper lemmas -/

theorem lowerChar_idem (c : Char) : lowerChar (lowerChar c) = lowerChar c := by
  by_cases h1 : c = 'A'
  · subst h1; decide
  by_cases h2 : c = 'B'
  · subst h2; decide
  by_cases h3 : c = 'C'
  · subst h3; decide
  by_cases h4 : c = 'D'
  · subst h4; decide
  by_cases h5 : c = 'E'
  · subst h5; decide
  by_cases h6 : c = 'F'
  · subst h6; decide
  by_cases h7 : c = 'G'
  · subst h7; decide
  by_cases h8 : c = 'H'
  · subst h8; decide
  by_cases h9 : c = 'I'
  · subst h9; decide
  by_cases h10 : c = 'J'
  · subst h10; decide
  by_cases h11 : c = 'K'
  · subst h11; decide
  by_cases h12 : c = 'L'
  · subst h12; decide
  by_cases h13 : c = 'M'
  · subst h13; decide
  by_cases h14 : c = 'N'
  · subst h14; decide
  by_cases h15 : c = 'O'
  · subst h15; decide
  by_cases h16 : c = 'P'
  · subst h16; decide
  by_cases h17 : c = 'Q'
  · subst h17; decide
  by_cases h18 : c = 'R'
  · subst h18; decide
  by_cases h19 : c = 'S'
  · subst h19; decide
  by_cases h20 : c = 'T'
  · subst h20; decide
  by_cases h21 : c = 'U'
  · subst h21; decide
  by_cases h22 : c = 'V'
  · subst h22; decide
  by_cases h23 : c = 'W'
  · subst h23; decide
  by_cases h24 : c = 'X'
  · subst h24; decide
  by_cases h25 : c = 'Y'
  · subst h25; decide
  by_cases h26 : c = 'Z'
  · subst h26; decide
  have h : lowerChar c = c := by
    unfold lowerChar
    rw [if_neg h1, if_neg h2, if_neg h3, if_neg h4, if_neg h5, if_neg h6,
      if_neg h7, if_neg h8, if_neg h9, if_neg h10, if_neg h11, if_neg h12,
      if_neg h13, if_neg h14, if_neg h15, if_neg h16, if_neg h17, if_neg h18,
      if_neg h19, if_neg h20, if_neg h21, if_neg h22, if_neg h23, if_neg h24,
      if_neg h25, if_neg h26]
  rw [h]; exact h

theorem lowerStr_idem (s : String) : lowerStr (lowerStr s) = lowerStr s := by
  unfold lowerStr
  rw [List.map_map]
  exact congrArg String.mk (List.map_congr_left (fun a _ => lowerChar_idem a))

theorem lastDot_cons (c : Char) (cs : List Char) :
    lastDot (c :: cs) =
      match lastDot cs with
      | some i => some (i + 1)
      | none => if c = '.' then some 0 else none := rfl

theorem lastDot_eq_none (cs : List Char) : lastDot cs = none ↔ '.' ∉ cs := by
  induction cs with
  | nil => simp [lastDot]
  | cons c cs ih =>
    rw [List.mem_cons, not_or, lastDot_cons]
    cases h : lastDot cs with
    | some i =>
      have hmem : '.' ∈ cs := by
        by_contra hmem
        rw [ih.mpr hmem] at h
        exact Option.noConfusion h
      constructor
      · intro hx; exact Option.noConfusion hx
      · rintro ⟨-, hx⟩; exact absurd hmem hx
    | none =>
      have hmem : '.' ∉ cs := ih.mp h
      by_cases hc : c = '.'
      · constructor
        · intro hx; rw [if_pos hc] at hx; exact Option.noConfusion hx
        · rintro ⟨hx, -⟩; exact absurd hc.symm hx
      · constructor
        · intro _; exact ⟨fun hx => hc hx.symm, hmem⟩
        · intro _; exact if_neg hc

theorem sfx_of_no_dot (s : String) (h : '.' ∉ s.data) : sfx s = "" := by
  unfold sfx
  rw [(lastDot_eq_none s.data).mpr h]

theorem lastDot_append (l r : List Char) :
    lastDot (l ++ r) =
      match lastDot r with
      | some j => some (l.length + j)
      | none => lastDot l := by
  induction l with
  | nil =>
    rw [List.nil_append]
    cases h : lastDot r with
    | some j => simp
    | none => simp [lastDot]
  | cons c l ih =>
    rw [List.cons_append, lastDot_cons, ih, lastDot_cons]
    cases h : lastDot r with
    | some j =>
      show some (l.length + j + 1) = some ((c :: l).length + j)
      congr 1
      simp only [List.length_cons]
      omega
    | none => rfl

theorem sfx_append_ext (name ext : String) (h1 : name.data ≠ [])
    (h2 : lastDot ext.data = some 0) (h3 : 2 ≤ ext.data.length) :
    sfx (name ++ ext) = ext := by
  unfold sfx
  rw [String.data_append, lastDot_append, h2]
  simp only [Nat.add_zero]
  have hlen : 0 < name.data.length := List.length_pos.mpr h1
  have hcond : 0 < name.data.length ∧
      name.data.length + 1 < (name.data ++ ext.data).length := by
    refine ⟨hlen, ?_⟩
    rw [List.length_append]
    omega
  rw [if_pos hcond, List.drop_left]

theorem head_filter_map {α β : Type} (l : List α) (f : α → β) (p : β → Bool) :
    ((l.map f).filter p).head? = (l.find? (fun x => p (f x))).map f := by
  induction l with
  | nil => rfl
  | cons a l ih =>
    cases h : p (f a) with
    | true => simp [List.filter_cons, List.find?_cons, h]
    | false => simp [List.filter_cons, List.find?_cons, h, ih]

/-! ## Claims -/

/-- C1. The gallery listing (the `list_available_images` call made by the
CLI `list` command) returns exactly the filenames of the image directory
whose extension is allow-listed — membership is characterized by that
condition, so every other entry (a stray ".txt", say) is excluded — and it
is a sublist of the directory listing, hence in directory iteration
order. -/
theorem C1_gallery_listing (fs : List String) :
    (∀ f, f ∈ list_available_images fs ↔
      f ∈ fs ∧ lowerStr (sfx f) ∈ SUPPORTED_FORMATS) ∧
    (list_available_images fs).Sublist fs := by
  constructor
  · intro f
    simp [list_available_images, List.mem_filter]
  · exact List.filter_sublist fs

/-- C3. `get_image_path` follows exactly the three-step algorithm of spec
§4.1, stated by `specResolve`: accept the literal name when it exists with
an allow-listed extension (compared case-insensitively); otherwise, for a
name with no extension (no dot), return the first existing candidate among
the appended allow-listed extensions in the fixed order .jpg, .jpeg, .png,
.gif, .webp; otherwise fail. -/
theorem C3_resolver_algorithm (fs : List String) (name : String) :
    get_image_path fs name = specResolve fs name := by
  unfold get_image_path specResolve
  by_cases h1 : name ∈ fs ∧ lowerStr (sfx name) ∈ SUPPORTED_FORMATS
  · rw [if_pos h1, if_pos h1]
  · rw [if_neg h1, if_neg h1]
    by_cases h2 : '.' ∉ name.data
    · rw [if_pos h2, if_pos h2, head_filter_map]
      cases h : SUPPORTED_FORMATS.find? (fun ext => decide (name ++ ext ∈ fs)) <;>
        simp [h]
    · rw [if_neg h2, if_neg h2]

/-- C2. For every filesystem state, input strings and oracle behaviour,
`analyze_image` returns a string that is the model's text, the fallback
text, or of the form "Error analyzing image: <message>", and
`compare_images` returns the model's text or a string of the form
"Error comparing images: <message>" — in the embedding both functions are
total, so no exception ever propagates to the caller, resolution failures
included. -/
theorem C2_client_never_raises (fs : List String)
    (oF : String → Option String) (gen : CallOutcome)
    (image_name prompt n1 n2 : String) :
    ((∃ t, gen = CallOutcome.returns t ∧
        analyze_image fs image_name prompt oF gen = t) ∨
      analyze_image fs image_name prompt oF gen =
        "No analysis generated for the image." ∨
      (∃ m, analyze_image fs image_name prompt oF gen =
        "Error analyzing image: " ++ m)) ∧
    ((∃ t, gen = CallOutcome.returns t ∧
        compare_images fs n1 n2 oF gen = t) ∨
      (∃ m, compare_images fs n1 n2 oF gen =
        "Error comparing images: " ++ m)) := by
  constructor
  · cases hres : get_image_path fs image_name with
    | error e =>
      refine Or.inr (Or.inr ⟨e, ?_⟩)
      simp [analyze_image, hres]
    | ok p =>
      cases hof : oF p with
      | some e =>
        refine Or.inr (Or.inr ⟨e, ?_⟩)
        simp [analyze_image, hres, hof]
      | none =>
        cases gen with
        | raises e =>
          refine Or.inr (Or.inr ⟨e, ?_⟩)
          simp [analyze_image, hres, hof]
        | returns t =>
          by_cases ht : t = ""
          · subst ht
            refine Or.inr (Or.inl ?_)
            simp [analyze_image, hres, hof]
          · refine Or.inl ⟨t, rfl, ?_⟩
            simp [analyze_image, hres, hof, ht]
  · cases hres1 : get_image_path fs n1 with
    | error e =>
      refine Or.inr ⟨e, ?_⟩
      simp [compare_images, hres1]
    | ok p1 =>
      cases hres2 : get_image_path fs n2 with
      | error e =>
        refine Or.inr ⟨e, ?_⟩
        simp [compare_images, hres1, hres2]
      | ok p2 =>
        cases hof1 : oF p1 with
        | some e =>
          refine Or.inr ⟨e, ?_⟩
          simp [compare_images, hres1, hres2, hof1]
        | none =>
          cases hof2 : oF p2 with
          | some e =>
            refine Or.inr ⟨e, ?_⟩
            simp [compare_images, hres1, hres2, hof1, hof2]
          | none =>
            cases gen with
            | raises e =>
              refine Or.inr ⟨e, ?_⟩
              simp [compare_images, hres1, hres2, hof1, hof2]
            | returns t =>
              refine Or.inl ⟨t, rfl, ?_⟩
              simp [compare_images, hres1, hres2, hof1, hof2]

/-- C4, counterexample. With `cat.png` present and the model returning no
text, `analyze_image` returns "No analysis generated for the image.",
which is not the string "No analysis generated." the claim states. -/
theorem C4_counterexample :
    analyze_image ["cat.png"] "cat" defaultPrompt (fun _ => none)
        (CallOutcome.returns "") = "No analysis generated for the image." ∧
    "No analysis generated for the image." ≠ "No analysis generated." := by
  exact ⟨rfl, by decide⟩

/-- C4, amended. Whenever the remote model returns no text for a
single-image analysis (resolution and image load having succeeded),
`analyze_image` returns exactly the fixed fallback string
"No analysis generated for the image.". -/
theorem C4_empty_text_fallback (fs : List String)
    (image_name prompt p : String) (oF : String → Option String)
    (hres : get_image_path fs image_name = Except.ok p)
    (hof : oF p = none) :
    analyze_image fs image_name prompt oF (CallOutcome.returns "") =
      "No analysis generated for the image." := by
  simp [analyze_image, hres, hof]

/-- Witness for `C4_empty_text_fallback` at a concrete input. -/
theorem C4_empty_text_fallback_witness :
    analyze_image ["cat.png"] "cat.png" defaultPrompt (fun _ => none)
        (CallOutcome.returns "") = "No analysis generated for the image." :=
  C4_empty_text_fallback ["cat.png"] "cat.png" defaultPrompt "cat.png"
    (fun _ => none) rfl rfl

/-- C5, counterexample. A resolution failure does not propagate as a raised
fault: `analyze_image` on a missing image returns the flattened
"Error analyzing image: …" string, and the CLI `analyze` branch shows that
string as an ordinary analysis result — the front end's `ValueError`
handler is never reached. -/
theorem C5_counterexample :
    analyze_image [] "missing" defaultPrompt (fun _ => none)
        (CallOutcome.returns "hi") =
      "Error analyzing image: " ++ errMsg "missing" ∧
    cliStep [] (fun _ => none) (CallOutcome.returns "hi")
        ["analyze", "missing"] =
      (false, CliOut.analysisShown
        ("Error analyzing image: " ++ errMsg "missing")) := by
  exact ⟨rfl, by decide⟩

/-- C5, amended. Resolution failures during an `analyze` or `compare`
operation are caught inside the client functions themselves (the `try`
block encloses the resolver calls) and flattened into
"Error analyzing image: <message>" resp. "Error comparing images:
<message>" returned strings; they never propagate to the front end, whose
`ValueError` handlers are therefore unreachable. -/
theorem C5_resolution_error_flattened (fs : List String)
    (oF : String → Option String) (gen : CallOutcome)
    (image_name prompt other e : String)
    (hres : get_image_path fs image_name = Except.error e) :
    analyze_image fs image_name prompt oF gen =
      "Error analyzing image: " ++ e ∧
    compare_images fs image_name other oF gen =
      "Error comparing images: " ++ e := by
  constructor
  · simp [analyze_image, hres]
  · simp [compare_images, hres]

/-- Witness for `C5_resolution_error_flattened` at a concrete input. -/
theorem C5_resolution_error_flattened_witness :
    analyze_image [] "missing" defaultPrompt (fun _ => none)
        (CallOutcome.returns "hi") =
      "Error analyzing image: " ++ errMsg "missing" ∧
    compare_images [] "missing" "other" (fun _ => none)
        (CallOutcome.returns "hi") =
      "Error comparing images: " ++ errMsg "missing" :=
  C5_resolution_error_flattened [] (fun _ => none)
    (CallOutcome.returns "hi") "missing" defaultPrompt "other"
    (errMsg "missing") rfl

/-- C6, counterexample. With only `cat.PNG` present, resolving the literal
name "cat.PNG" succeeds, but resolving the extensionless base name "cat"
fails — the extension-guessing branch appends only the lowercase
extensions and checks existence exactly, so it never finds `cat.PNG`.
The claim states both resolve. -/
theorem C6_counterexample :
    get_image_path ["cat.PNG"] "cat.PNG" = Except.ok "cat.PNG" ∧
    get_image_path ["cat.PNG"] "cat" = Except.error (errMsg "cat") :=
  ⟨rfl, rfl⟩

/-- C6, amended. Extension recognition is case-insensitive in the literal
branch only: every file present whose extension is allow-listed in any
letter case resolves by its literal name. The guessing branch is
case-sensitive: it tries exactly the lowercase extensions in the fixed
order, so an extensionless name resolves precisely by appending one of
those lowercase extensions (e.g., with only "cat.PNG" present, "cat.PNG"
resolves but "cat" does not). -/
theorem C6_literal_case_insensitive (fs : List String) (f name : String)
    (hmem : f ∈ fs) (hsfx : lowerStr (sfx f) ∈ SUPPORTED_FORMATS)
    (hdot : '.' ∉ name.data)
    (hcand : ∃ ext ∈ SUPPORTED_FORMATS, name ++ ext ∈ fs) :
    get_image_path fs f = Except.ok f ∧
    ∃ ext ∈ SUPPORTED_FORMATS,
      get_image_path fs name = Except.ok (name ++ ext) := by
  constructor
  · unfold get_image_path
    rw [if_pos ⟨hmem, hsfx⟩]
  · have hlit : ¬(name ∈ fs ∧ lowerStr (sfx name) ∈ SUPPORTED_FORMATS) := by
      rw [sfx_of_no_dot name hdot]
      rintro ⟨-, hx⟩
      exact absurd hx (by decide)
    have hsome : (SUPPORTED_FORMATS.find?
        (fun ext => decide (name ++ ext ∈ fs))).isSome := by
      rw [List.find?_isSome]
      obtain ⟨ext, hext, hin⟩ := hcand
      exact ⟨ext, hext, by simpa using hin⟩
    obtain ⟨ext, hfind⟩ := Option.isSome_iff_exists.mp hsome
    refine ⟨ext, List.mem_of_find?_eq_some hfind, ?_⟩
    unfold get_image_path
    rw [if_neg hlit, if_pos hdot, hfind]

/-- Witness for `C6_literal_case_insensitive` at a concrete input. -/
theorem C6_literal_case_insensitive_witness :
    get_image_path ["cat.PNG", "dog.png"] "cat.PNG" =
      Except.ok "cat.PNG" ∧
    ∃ ext ∈ SUPPORTED_FORMATS,
      get_image_path ["cat.PNG", "dog.png"] "dog" =
        Except.ok ("dog" ++ ext) :=
  C6_literal_case_insensitive ["cat.PNG", "dog.png"] "cat.PNG" "dog"
    (by decide) (by decide) (by decide) ⟨".png", by decide, by decide⟩

/-- C8, counterexample. With a file literally named `.jpg` present,
resolving the empty name returns the path `.jpg`, whose `pathlib` suffix
is empty (a leading dot starts no extension), hence not in the
allow-list — the invariant as stated fails for the empty name. -/
theorem C8_counterexample :
    get_image_path [".jpg"] "" = Except.ok ".jpg" ∧
    lowerStr (sfx ".jpg") ∉ SUPPORTED_FORMATS :=
  ⟨rfl, by decide⟩

/-- C8, amended. For every nonempty name, every path `get_image_path`
returns (hence every resolved reference `analyze_image` and
`compare_images` use for a nonempty name) has a file extension whose
lowercase form is in the fixed allow-list
.jpg, .jpeg, .png, .gif, .webp. -/
theorem C8_resolved_extension_allowed (fs : List String) (name p : String)
    (hname : name ≠ "") (h : get_image_path fs name = Except.ok p) :
    lowerStr (sfx p) ∈ SUPPORTED_FORMATS := by
  unfold get_image_path at h
  by_cases h1 : name ∈ fs ∧ lowerStr (sfx name) ∈ SUPPORTED_FORMATS
  · rw [if_pos h1] at h
    injection h with h
    subst h
    exact h1.2
  · rw [if_neg h1] at h
    by_cases h2 : '.' ∉ name.data
    · rw [if_pos h2] at h
      cases hf : SUPPORTED_FORMATS.find?
          (fun ext => decide (name ++ ext ∈ fs)) with
      | none =>
        rw [hf] at h
        exact Except.noConfusion h
      | some ext =>
        rw [hf] at h
        injection h with h
        subst h
        have hext : ext ∈ SUPPORTED_FORMATS := List.mem_of_find?_eq_some hf
        have hnd : name.data ≠ [] := by
          intro hdata
          apply hname
          cases name with
          | mk l =>
            simp only at hdata
            rw [hdata]
        have : ext = ".jpg" ∨ ext = ".jpeg" ∨ ext = ".png" ∨
            ext = ".gif" ∨ ext = ".webp" := by
          simpa [SUPPORTED_FORMATS] using hext
        rcases this with h|h|h|h|h <;> subst h <;>
          rw [sfx_append_ext name _ hnd (by decide) (by decide)] <;> decide
    · rw [if_neg h2] at h
      exact Except.noConfusion h

/-- Witness for `C8_resolved_extension_allowed` at a concrete input. -/
theorem C8_resolved_extension_allowed_witness :
    lowerStr (sfx "cat.png") ∈ SUPPORTED_FORMATS :=
  C8_resolved_extension_allowed ["cat.png"] "cat" "cat.png"
    (by decide) rfl

/-- C9. For every name with no matching file — the literal-name check
fails and no allow-listed extension yields an existing candidate —
`get_image_path` fails with a not-found / unsupported-format error whose
message contains the user-supplied image name. -/
theorem C9_error_names_identifier (fs : List String) (name : String)
    (hlit : ¬(name ∈ fs ∧ lowerStr (sfx name) ∈ SUPPORTED_FORMATS))
    (hnone : ∀ ext ∈ SUPPORTED_FORMATS, name ++ ext ∉ fs) :
    ∃ e, get_image_path fs name = Except.error e ∧
      ∃ l r, e = l ++ name ++ r := by
  refine ⟨errMsg name, ?_, ?_⟩
  · unfold get_image_path
    rw [if_neg hlit]
    by_cases h2 : '.' ∉ name.data
    · rw [if_pos h2]
      have hfind : SUPPORTED_FORMATS.find?
          (fun ext => decide (name ++ ext ∈ fs)) = none := by
        rw [List.find?_eq_none]
        intro x hx
        simpa using hnone x hx
      rw [hfind]
    · rw [if_neg h2]
  · refine ⟨"Image \x27", "\x27 not found in " ++ imageDirStr ++
      " or format not supported. Supported formats: " ++
      String.intercalate ", " SUPPORTED_FORMATS, ?_⟩
    simp [errMsg, String.append_assoc]

/-- Witness for `C9_error_names_identifier` at a concrete input. -/
theorem C9_error_names_identifier_witness :
    ∃ e, get_image_path [] "missing" = Except.error e ∧
      ∃ l r, e = l ++ "missing" ++ r :=
  C9_error_names_identifier [] "missing" (by decide) (by decide)

/-- C7. For every input line of the read-evaluate-print loop: the
iteration exits the loop exactly when the first token of the line
lowercases to "quit"; an unknown verb prints the invalid-command message
and continues; `analyze` with no image argument prints its usage message
and continues; `compare` with an argument count other than two prints its
usage message and continues. -/
theorem C7_quit_only_exit (fs : List String)
    (oF : String → Option String) (gen : CallOutcome) (line : String) :
    ((cliStep fs oF gen (tokenize line)).1 = true ↔
      ∃ c cs, tokenize line = c :: cs ∧ lowerStr c = "quit") ∧
    (∀ c cs, tokenize line = c :: cs →
      lowerStr c ≠ "quit" → lowerStr c ≠ "list" → lowerStr c ≠ "analyze" →
      lowerStr c ≠ "compare" →
      cliStep fs oF gen (tokenize line) = (false, CliOut.invalidCmd)) ∧
    (∀ c, tokenize line = [c] → lowerStr c = "analyze" →
      cliStep fs oF gen (tokenize line) = (false, CliOut.analyzeUsage)) ∧
    (∀ c cs, tokenize line = c :: cs → lowerStr c = "compare" →
      cs.length ≠ 2 →
      cliStep fs oF gen (tokenize line) = (false, CliOut.compareUsage)) := by
  generalize tokenize line = ts
  rcases ts with - | ⟨c, cs⟩
  · refine ⟨?_, ?_, ?_, ?_⟩
    · constructor
      · intro hx
        simp [cliStep] at hx
      · rintro ⟨c, cs, heq, -⟩
        exact List.noConfusion heq
    · rintro c cs heq
      exact absurd heq (by simp)
    · rintro c heq
      exact absurd heq (by simp)
    · rintro c cs heq
      exact absurd heq (by simp)
  · refine ⟨?_, ?_, ?_, ?_⟩
    · constructor
      · intro hx
        by_cases hq : lowerStr c = "quit"
        · exact ⟨c, cs, rfl, hq⟩
        · exfalso
          have hfalse : (cliStep fs oF gen (c :: cs)).1 = false := by
            simp only [cliStep]
            rw [if_neg hq]
            by_cases hl : lowerStr c = "list"
            · rw [if_pos hl]
            · rw [if_neg hl]
              by_cases ha : lowerStr c = "analyze"
              · rw [if_pos ha]
                cases cs <;> rfl
              · rw [if_neg ha]
                by_cases hcmp : lowerStr c = "compare"
                · rw [if_pos hcmp]
                  rcases cs with - | ⟨a, - | ⟨b, - | ⟨x, r⟩⟩⟩ <;> rfl
                · rw [if_neg hcmp]
          rw [hfalse] at hx
          exact Bool.noConfusion hx
      · rintro ⟨c', cs', heq, hq⟩
        injection heq with e1 e2
        subst e1
        subst e2
        simp only [cliStep]
        rw [if_pos hq]
    · rintro c' cs' heq h1 h2 h3 h4
      injection heq with e1 e2
      subst e1
      subst e2
      simp only [cliStep]
      rw [if_neg h1, if_neg h2, if_neg h3, if_neg h4]
    · rintro c' heq h2
      injection heq with e1 e2
      subst e1
      subst e2
      have hq : lowerStr c ≠ "quit" := by rw [h2]; decide
      have hl : lowerStr c ≠ "list" := by rw [h2]; decide
      simp only [cliStep]
      rw [if_neg hq, if_neg hl, if_pos h2]
    · rintro c' cs' heq h2 hlen
      injection heq with e1 e2
      subst e1
      subst e2
      have hq : lowerStr c ≠ "quit" := by rw [h2]; decide
      have hl : lowerStr c ≠ "list" := by rw [h2]; decide
      have ha : lowerStr c ≠ "analyze" := by rw [h2]; decide
      simp only [cliStep]
      rw [if_neg hq, if_neg hl, if_neg ha, if_pos h2]
      rcases cs with - | ⟨a, - | ⟨b, - | ⟨x, r⟩⟩⟩
      · rfl
      · rfl
      · exact absurd rfl hlen
      · rfl

/-- Witness for `C7_quit_only_exit` at concrete inputs. -/
theorem C7_quit_only_exit_witness :
    cliStep [] (fun _ => none) (CallOutcome.returns "hi")
        (tokenize "frobnicate x") = (false, CliOut.invalidCmd) ∧
    cliStep [] (fun _ => none) (CallOutcome.returns "hi")
        (tokenize "compare a") = (false, CliOut.compareUsage) ∧
    (cliStep [] (fun _ => none) (CallOutcome.returns "hi")
        (tokenize "QUIT now")).1 = true :=
  ⟨(C7_quit_only_exit [] (fun _ => none) (CallOutcome.returns "hi")
      "frobnicate x").2.1 "frobnicate" ["x"] (by decide) (by decide)
      (by decide) (by decide) (by decide),
   (C7_quit_only_exit [] (fun _ => none) (CallOutcome.returns "hi")
      "compare a").2.2.2 "compare" ["a"] (by decide) (by decide) (by decide),
   (C7_quit_only_exit [] (fun _ => none) (CallOutcome.returns "hi")
      "QUIT now").1.mpr ⟨"QUIT", ["now"], by decide, by decide⟩⟩

/-- C10. The CLI dispatches on the lowercased first token: replacing the
first token of any tokenized input line by its lowercase form leaves the
step of the loop (exit flag and output) unchanged, so "QUIT", "Analyze",
etc. behave identically to their lowercase forms. -/
theorem C10_lowercased_dispatch (fs : List String)
    (oF : String → Option String) (gen : CallOutcome) (c : String)
    (args : List String) :
    cliStep fs oF gen (c :: args) = cliStep fs oF gen (lowerStr c :: args) := by
  simp only [cliStep]
  rw [lowerStr_idem]
